import Mathlib

/-!
Verification of the fish-feeder firmware sketch (NEW_ADEBOYE.ino).

The sketch is shallowly embedded: the global variables touched by the
functions under scrutiny become fields of explicit state records, the
Arduino `String` buffer becomes a `List Char`, EEPROM becomes a byte map
`Nat → Nat` (each cell reduced mod 256 on write), and machine integers
are modelled as `Int`/`Nat` with explicit `% 2 ^ w` where wrap-around
matters.  Each definition mirrors one source function, statement order
included.
-/

namespace FishFeeder

/-! ### Arduino String primitives

`String.indexOf(c)` returns the index of the first occurrence of `c`
as an `int`, or `-1` when absent.  `String.toInt` is C `atol`: skip
leading whitespace, an optional sign, then fold leading decimal digits,
yielding 0 when no digit is found (the zero fallback). -/

def indexOfFrom (c : Char) : List Char → Int → Int
  | [], _ => -1
  | x :: rest, i => if x = c then i else indexOfFrom c rest (i + 1)

def indexOfChar (c : Char) (l : List Char) : Int :=
  indexOfFrom c l 0

def digitVal (c : Char) : Nat := c.toNat - 48

def leadingDigits : List Char → Nat → Nat
  | [], acc => acc
  | c :: rest, acc => if c.isDigit then leadingDigits rest (10 * acc + digitVal c) else acc

def isSpaceChar (c : Char) : Bool :=
  c = ' ' || c = '\t' || c = '\n' || c = '\x0b' || c = '\x0c' || c = '\r'

def toInt (l : List Char) : Int :=
  let l1 := l.dropWhile isSpaceChar
  match l1 with
  | '-' :: rest => -(leadingDigits rest 0 : Int)
  | '+' :: rest => (leadingDigits rest 0 : Int)
  | _ => (leadingDigits l1 0 : Int)

/-! ### Menu states, messages, clock, and the global state record -/

inductive MenuState
  | MAIN_DISPLAY
  | SET_PUMP_TIME
  | SET_PUMP_DURATION
  | SET_FEED_TIME
  | SET_FEED_QUANTITY
  | SET_CURRENT_TIME
deriving DecidableEq, Repr

/-- The LCD message each branch of `processInput` ends with. -/
inductive Msg
  | noneMsg
  | pumpTimeSet
  | durationSet
  | feedTimeSet
  | quantitySet
  | clockSet
  | invalidTime
  | useStar
  | invalidDuration
  | invalidQuantity
deriving DecidableEq, Repr

structure RTCTime where
  year : Int
  month : Int
  day : Int
  hour : Int
  minute : Int
  second : Int
deriving DecidableEq, Repr

/-- The firmware globals touched by `handleKeypress`, `processInput`,
`cancelOperation` and `saveSettings`, plus the EEPROM byte map, the RTC
registers, the relay/servo outputs, and the last message shown. -/
structure Sys where
  currentState : MenuState
  inputBuffer : List Char
  cursorPos : Nat
  pumpHour : Int
  pumpMinute : Int
  pumpDuration : Int
  feedHour : Int
  feedMinute : Int
  feedQuantity : Int
  pumpActivated : Bool
  pumpPaused : Bool
  pumpElapsedBeforePause : Nat
  feedActivated : Bool
  feedPaused : Bool
  feedCount : Nat
  relayOn : Bool
  servoAtRest : Bool
  eeprom : Nat → Nat
  rtc : RTCTime
  msg : Msg

/-! ### EEPROM plumbing

`EEPROM.write` stores one byte (the `int` argument reduced to `uint8_t`,
i.e. mod 256).  `writeIntToEEPROM` stores the 16-bit pattern of an int
as high byte at `address`, low byte at `address + 1`;
`readIntFromEEPROM` reassembles `(read(a) << 8) + read(a + 1)`. -/

def eepromWriteByte (e : Nat → Nat) (a : Nat) (v : Int) : Nat → Nat :=
  fun x => if x = a then (v.emod 256).toNat else e x

def writeIntToEEPROM (e : Nat → Nat) (address : Nat) (value : Nat) : Nat → Nat :=
  let e1 := fun x => if x = address then value / 256 % 256 else e x
  fun x => if x = address + 1 then value % 256 else e1 x

def readIntFromEEPROM (e : Nat → Nat) (address : Nat) : Nat :=
  e address * 256 + e (address + 1)

/-- EEPROM layout constants from the sketch. -/
def EEPROM_INIT_FLAG : Nat := 0
def EEPROM_PUMP_HOUR : Nat := 1
def EEPROM_PUMP_MINUTE : Nat := 2
def EEPROM_PUMP_DURATION : Nat := 3
def EEPROM_FEED_HOUR : Nat := 5
def EEPROM_FEED_MINUTE : Nat := 6
def EEPROM_FEED_QUANTITY : Nat := 7

/-- `saveSettings()`: magic flag, pump hour/minute bytes, 16-bit pump
duration, feed hour/minute bytes, 16-bit feed quantity.  The 16-bit
stores take the int's 16-bit pattern (`emod 65536`). -/
def saveSettings (s : Sys) : Sys :=
  let e := s.eeprom
  let e := eepromWriteByte e EEPROM_INIT_FLAG 42
  let e := eepromWriteByte e EEPROM_PUMP_HOUR s.pumpHour
  let e := eepromWriteByte e EEPROM_PUMP_MINUTE s.pumpMinute
  let e := writeIntToEEPROM e EEPROM_PUMP_DURATION (s.pumpDuration.emod 65536).toNat
  let e := eepromWriteByte e EEPROM_FEED_HOUR s.feedHour
  let e := eepromWriteByte e EEPROM_FEED_MINUTE s.feedMinute
  let e := writeIntToEEPROM e EEPROM_FEED_QUANTITY (s.feedQuantity.emod 65536).toNat
  { s with eeprom := e }

/-! ### processInput

Mirrors the source switch case by case.  Note that in the pump-time and
feed-time cases the sketch assigns the parsed values to the globals
before performing the range check, exactly as the C code does. -/

def processInput (s : Sys) : Sys :=
  match s.currentState with
  | .SET_PUMP_TIME =>
    let colonPos := indexOfChar ':' s.inputBuffer
    if 0 < colonPos then
      let s := { s with
        pumpHour := toInt (s.inputBuffer.take colonPos.toNat),
        pumpMinute := toInt (s.inputBuffer.drop (colonPos.toNat + 1)) }
      if 0 ≤ s.pumpHour ∧ s.pumpHour ≤ 23 ∧ 0 ≤ s.pumpMinute ∧ s.pumpMinute ≤ 59 then
        let s := saveSettings s
        { s with msg := .pumpTimeSet, currentState := .MAIN_DISPLAY,
                 inputBuffer := [], cursorPos := 0 }
      else
        { s with msg := .invalidTime, inputBuffer := [], cursorPos := 0 }
    else
      { s with msg := .useStar, inputBuffer := [], cursorPos := 0 }
  | .SET_PUMP_DURATION =>
    let value := toInt s.inputBuffer
    if 0 < value then
      let s := saveSettings { s with pumpDuration := value }
      { s with msg := .durationSet, currentState := .MAIN_DISPLAY,
               inputBuffer := [], cursorPos := 0 }
    else
      { s with msg := .invalidDuration, inputBuffer := [], cursorPos := 0 }
  | .SET_FEED_TIME =>
    let colonPos := indexOfChar ':' s.inputBuffer
    if 0 < colonPos then
      let s := { s with
        feedHour := toInt (s.inputBuffer.take colonPos.toNat),
        feedMinute := toInt (s.inputBuffer.drop (colonPos.toNat + 1)) }
      if 0 ≤ s.feedHour ∧ s.feedHour ≤ 23 ∧ 0 ≤ s.feedMinute ∧ s.feedMinute ≤ 59 then
        let s := saveSettings s
        { s with msg := .feedTimeSet, currentState := .MAIN_DISPLAY,
                 inputBuffer := [], cursorPos := 0 }
      else
        { s with msg := .invalidTime, inputBuffer := [], cursorPos := 0 }
    else
      { s with msg := .useStar, inputBuffer := [], cursorPos := 0 }
  | .SET_FEED_QUANTITY =>
    let value := toInt s.inputBuffer
    if 1 ≤ value ∧ value ≤ 999 then
      let s := saveSettings { s with feedQuantity := value }
      { s with msg := .quantitySet, currentState := .MAIN_DISPLAY,
               inputBuffer := [], cursorPos := 0 }
    else
      { s with msg := .invalidQuantity, inputBuffer := [], cursorPos := 0 }
  | .SET_CURRENT_TIME =>
    let colonPos := indexOfChar ':' s.inputBuffer
    if 0 < colonPos then
      let newHour := toInt (s.inputBuffer.take colonPos.toNat)
      let newMinute := toInt (s.inputBuffer.drop (colonPos.toNat + 1))
      if 0 ≤ newHour ∧ newHour ≤ 23 ∧ 0 ≤ newMinute ∧ newMinute ≤ 59 then
        { s with
          rtc := { s.rtc with hour := newHour, minute := newMinute, second := 0 },
          msg := .clockSet, currentState := .MAIN_DISPLAY,
          inputBuffer := [], cursorPos := 0 }
      else
        { s with msg := .invalidTime, inputBuffer := [], cursorPos := 0 }
    else
      { s with msg := .useStar, inputBuffer := [], cursorPos := 0 }
  | .MAIN_DISPLAY => s

/-- The sketch's power-on defaults for the settings globals. -/
def initialSettings : Sys where
  currentState := .MAIN_DISPLAY
  inputBuffer := []
  cursorPos := 0
  pumpHour := 8
  pumpMinute := 0
  pumpDuration := 30
  feedHour := 9
  feedMinute := 0
  feedQuantity := 3
  pumpActivated := false
  pumpPaused := false
  pumpElapsedBeforePause := 0
  feedActivated := false
  feedPaused := false
  feedCount := 0
  relayOn := false
  servoAtRest := true
  eeprom := fun _ => 0
  rtc := { year := 2025, month := 1, day := 1, hour := 0, minute := 0, second := 0 }
  msg := .noneMsg

/-! ### The input editor: the digit and star branches of handleKeypress

A digit key inserts itself; the star key inserts the separator ':'.
Both use the same replace-or-append rule, including the (dead) clamp of
the cursor to the buffer length after the increment. -/

def insertOrReplace (key : Char) (buf : List Char) (cursor : Nat) : List Char × Nat :=
  let c := if key = '*' then ':' else key
  if cursor < buf.length then
    let buf1 := buf.set cursor c
    let cur1 := cursor + 1
    let cur2 := if buf1.length < cur1 then buf1.length else cur1
    (buf1, cur2)
  else
    (buf ++ [c], (buf ++ [c]).length)

/-! ### Display rendering of the editable row

`updateInputDisplayWithCursor()` picks the prompt from `currentState`
(the if chain of the source), prints prompt then buffer on row 1, and
places the blinking cursor at `promptLen + cursorPos`. -/

def promptFor (st : MenuState) : List Char :=
  if st = .SET_PUMP_DURATION then ("Sec: ").toList
  else if st = .SET_FEED_QUANTITY then ("(1-999): ").toList
  else ("Enter: ").toList

def promptLenFor (st : MenuState) : Nat :=
  if st = .SET_PUMP_DURATION then 5
  else if st = .SET_FEED_QUANTITY then 9
  else 7

structure RenderOut where
  rowText : List Char
  cursorCol : Nat
  cursorShown : Bool
deriving DecidableEq, Repr

def updateInputDisplayWithCursor (s : Sys) : RenderOut where
  rowText := promptFor s.currentState ++ s.inputBuffer
  cursorCol := promptLenFor s.currentState + s.cursorPos
  cursorShown := true

/-- The row-0 caption redrawn for each edit screen (the switch in
`cancelOperation` and the menu-entry code agree on these texts). -/
def captionFor : MenuState → List Char
  | .SET_PUMP_TIME => ("Pump Time (HH*MM)").toList
  | .SET_PUMP_DURATION => ("Pump Duration").toList
  | .SET_FEED_TIME => ("Feed Time (HH*MM)").toList
  | .SET_FEED_QUANTITY => ("Feed Quantity").toList
  | .SET_CURRENT_TIME => ("Set Time (HH*MM)").toList
  | .MAIN_DISPLAY => []

/-! ### cancelOperation

The confirmation sub-loop waits until the user answers with the Enter
key (yes: really cancel) or the ESC key (no: keep going); the blocking
loop is embedded as a function of the answer.  `stopPump()` switches
the relay off and clears the pump run. -/

inductive CancelAnswer
  | yes
  | no
deriving DecidableEq, Repr

def stopPump (s : Sys) : Sys :=
  { s with relayOn := false, pumpActivated := false, pumpPaused := false,
           pumpElapsedBeforePause := 0 }

def cancelOperation (s : Sys) (ans : CancelAnswer) : Sys :=
  match ans with
  | .yes =>
    let s := if s.pumpActivated then stopPump s else s
    let s :=
      if s.feedActivated then
        { s with feedActivated := false, feedPaused := false, feedCount := 0,
                 servoAtRest := true }
      else s
    { s with currentState := .MAIN_DISPLAY, inputBuffer := [], cursorPos := 0 }
  | .no => s

/-- What the ESC ("no") branch of `cancelOperation` draws when the
interrupted screen was an edit screen: the caption for the current
state on row 0, then `updateInputDisplayWithCursor()`. -/
def cancelNoDisplay (s : Sys) : List Char × RenderOut :=
  (captionFor s.currentState, updateInputDisplayWithCursor s)

/-! ### Schedule monitor

`checkPumpSchedule` / `checkFeedSchedule` with their static latch made
explicit: each takes the current latch and the polled hour/minute and
returns (did a start fire, new latch).  The feed variant carries the
extra `!feedActivated` guard of the source. -/

def checkPumpSchedule (cfgH cfgM : Int) (h m : Int) (trig : Bool) : Bool × Bool :=
  let fire := h = cfgH && m = cfgM && !trig
  let trig1 := if fire then true else trig
  let trig2 := if m ≠ cfgM then false else trig1
  (fire, trig2)

def checkFeedSchedule (cfgH cfgM : Int) (h m : Int) (active trig : Bool) : Bool × Bool :=
  let fire := h = cfgH && m = cfgM && !trig && !active
  let trig1 := if fire then true else trig
  let trig2 := if m ≠ cfgM then false else trig1
  (fire, trig2)

/-- Folding `checkPumpSchedule` over a sequence of polled clock readings,
counting fired starts and threading the latch. -/
def pumpScan (cfgH cfgM : Int) : List (Int × Int) → Bool → Nat × Bool
  | [], trig => (0, trig)
  | p :: rest, trig =>
    let r := checkPumpSchedule cfgH cfgM p.1 p.2 trig
    let t := pumpScan cfgH cfgM rest r.2
    ((if r.1 then 1 else 0) + t.1, t.2)

/-- Folding `checkFeedSchedule` over polls; each poll also carries the
`feedActivated` flag observed at that iteration. -/
def feedScan (cfgH cfgM : Int) : List (Int × Int × Bool) → Bool → Nat × Bool
  | [], trig => (0, trig)
  | p :: rest, trig =>
    let r := checkFeedSchedule cfgH cfgM p.1 p.2.1 p.2.2 trig
    let t := feedScan cfgH cfgM rest r.2
    ((if r.1 then 1 else 0) + t.1, t.2)

/-! ### Pump run: timing model

State of one pump run, advanced one millisecond per `tick` (the loop
body's completion check of lines 199-204 runs after every tick, an
idealisation of the polling loop), with the pump branch of
`togglePause()` as the `pauseKey` event.  `onTime` is the ghost count
of milliseconds during which the relay output is on. -/

structure PumpRun where
  activated : Bool
  paused : Bool
  startTime : Nat
  elapsedBefore : Nat
  now : Nat
  relayOn : Bool
  onTime : Nat
deriving DecidableEq, Repr

inductive PumpEv
  | tick
  | pauseKey
deriving DecidableEq, Repr

/-- `stopPump()` as it acts on the run state. -/
def stopPumpRun (s : PumpRun) : PumpRun :=
  { s with activated := false, paused := false, elapsedBefore := 0, relayOn := false }

/-- Lines 199-204 of `loop()`: completion check against duration `D`
seconds. -/
def pumpLoopCheck (D : Nat) (s : PumpRun) : PumpRun :=
  if s.activated && !s.paused then
    if D * 1000 ≤ s.elapsedBefore + (s.now - s.startTime) then stopPumpRun s else s
  else s

def pumpStep (D : Nat) (s : PumpRun) : PumpEv → PumpRun
  | .tick =>
    let s1 := { s with now := s.now + 1,
                       onTime := s.onTime + (if s.relayOn then 1 else 0) }
    pumpLoopCheck D s1
  | .pauseKey =>
    if s.activated then
      if !s.paused then
        { s with paused := true,
                 elapsedBefore := s.elapsedBefore + (s.now - s.startTime),
                 relayOn := false }
      else
        { s with paused := false, startTime := s.now, relayOn := true }
    else s

def pumpRunTrace (D : Nat) (s : PumpRun) : List PumpEv → PumpRun
  | [] => s
  | e :: evs => pumpRunTrace D (pumpStep D s e) evs

/-- `startPump()` at time `t0`. -/
def startPump (t0 : Nat) : PumpRun where
  activated := true
  paused := false
  startTime := t0
  elapsedBefore := 0
  now := t0
  relayOn := true
  onTime := 0

/-! ### Feed run: dispensing model

State of one feed run; `tick` advances one millisecond and runs the
loop body of lines 206-223, `pauseKey` is the feed branch of
`togglePause()`.  `dispenses` is the ghost list of times at which
`dispenseFood()` ran. -/

structure FeedRun where
  activated : Bool
  paused : Bool
  feedCount : Nat
  lastFeedTime : Nat
  now : Nat
  dispenses : List Nat
deriving DecidableEq, Repr

inductive FeedEv
  | tick
  | pauseKey
deriving DecidableEq, Repr

/-- Lines 206-223 of `loop()`: dispense when 2000 ms have passed since
`lastFeedTime`, then complete when the count reaches `Q`. -/
def feedLoopBody (Q : Nat) (s : FeedRun) : FeedRun :=
  if s.activated && !s.paused then
    if 2000 ≤ s.now - s.lastFeedTime then
      let s1 := { s with dispenses := s.dispenses ++ [s.now],
                         lastFeedTime := s.now,
                         feedCount := s.feedCount + 1 }
      if Q ≤ s1.feedCount then
        { s1 with activated := false, feedCount := 0 }
      else s1
    else s
  else s

def feedStep (Q : Nat) (s : FeedRun) : FeedEv → FeedRun
  | .tick => feedLoopBody Q { s with now := s.now + 1 }
  | .pauseKey =>
    if s.activated then
      if !s.paused then { s with paused := true }
      else { s with paused := false, lastFeedTime := s.now }
    else s

def feedRunTrace (Q : Nat) (s : FeedRun) : List FeedEv → FeedRun
  | [] => s
  | e :: evs => feedRunTrace Q (feedStep Q s e) evs

/-- `startFeeding()` at time `t0`. -/
def startFeeding (t0 : Nat) : FeedRun where
  activated := true
  paused := false
  feedCount := 0
  lastFeedTime := t0
  now := t0
  dispenses := []

/-- Consecutive dispense times are at least 2000 ms apart. -/
def gapsOK : List Nat → Bool
  | [] => true
  | [_] => true
  | a :: b :: rest => decide (a + 2000 ≤ b) && gapsOK (b :: rest)

/-! ### Helper lemmas on lists -/

theorem get_set_same : ∀ (l : List Char) (i : Nat) (c : Char), i < l.length →
    (l.set i c).get? i = some c
  | [], _, _, h => absurd h (by simp)
  | _ :: _, 0, _, _ => rfl
  | _ :: rest, i + 1, c, h => get_set_same rest i c (Nat.succ_lt_succ_iff.mp (by simpa using h))

theorem get_set_other : ∀ (l : List Char) (i j : Nat) (c : Char), i ≠ j →
    (l.set i c).get? j = l.get? j
  | [], _, _, _, _ => rfl
  | _ :: _, 0, 0, _, h => absurd rfl h
  | _ :: _, 0, _ + 1, _, _ => rfl
  | _ :: _, _ + 1, 0, _, _ => rfl
  | _ :: rest, i + 1, j + 1, c, h =>
    get_set_other rest i j c (fun e => h (by rw [e]))

theorem indexOfFrom_of_not_mem (c : Char) : ∀ (l : List Char) (i : Int), c ∉ l →
    indexOfFrom c l i = -1
  | [], _, _ => rfl
  | x :: rest, i, h => by
    have hx : ¬(x = c) := fun e => h (e ▸ List.mem_cons_self x rest)
    rw [indexOfFrom, if_neg hx]
    exact indexOfFrom_of_not_mem c rest (i + 1) (fun hm => h (List.mem_cons_of_mem _ hm))

theorem indexOfChar_of_not_mem (c : Char) (l : List Char) (h : c ∉ l) :
    indexOfChar c l = -1 :=
  indexOfFrom_of_not_mem c l 0 h

example : toInt ['1', '2'] = 12 := by decide
example : toInt [] = 0 := by decide
example : toInt [':', '3'] = 0 := by decide
example : indexOfChar ':' ['9', '9', ':'] = 2 := by decide
example : indexOfChar ':' ['9', '9'] = -1 := by decide
example :
    (processInput { initialSettings with
      currentState := .SET_PUMP_TIME,
      inputBuffer := ['0', '7', ':', '1', '5'] }).pumpHour = 7 := by decide
example :
    (processInput { initialSettings with
      currentState := .SET_PUMP_TIME,
      inputBuffer := ['9', '9', ':', '9', '9'] }).pumpHour = 99 := by decide

/-! ### Claim C9 -/

/-- Claim C9: writing a value with the 16-bit EEPROM write (high byte
at the address, low byte at the next address) and reading it back with
the 16-bit read returns the value mod 2^16, hence the value itself for
every value in [0, 65535].  Bytes and the 16-bit value are modelled as
bit patterns (Nat reduced mod 2^8 / 2^16). -/
theorem c9_eeprom_roundtrip (e : Nat → Nat) (a : Nat) (v : Nat) :
    readIntFromEEPROM (writeIntToEEPROM e a v) a = v % 65536 ∧
    (v < 65536 → readIntFromEEPROM (writeIntToEEPROM e a v) a = v) := by
  have ha : ¬(a = a + 1) := by omega
  have ha2 : ¬(a + 1 = a) := by omega
  have h1 : readIntFromEEPROM (writeIntToEEPROM e a v) a = v / 256 % 256 * 256 + v % 256 := by
    rw [readIntFromEEPROM, writeIntToEEPROM]
    simp [ha, ha2]
  constructor
  · rw [h1]; omega
  · intro hv; rw [h1]; omega

theorem c9_witness :
    51966 < 65536 ∧
    readIntFromEEPROM (writeIntToEEPROM initialSettings.eeprom 3 51966) 3 = 51966 :=
  ⟨by decide, (c9_eeprom_roundtrip initialSettings.eeprom 3 51966).2 (by decide)⟩

/-! ### Claim C5 -/

/-- Claim C5: a digit key (or the star key, which produces the
separator ':') behaves as replace-or-append: with the cursor strictly
inside the buffer the character at the cursor is overwritten and the
cursor advances by one; otherwise the character is appended and the
cursor is set to the new buffer length. -/
theorem c5_insert_or_replace (key : Char) (buf : List Char) (cursor : Nat)
    (hkey : key.isDigit = true ∨ key = '*') (hcur : cursor ≤ buf.length) :
    (cursor < buf.length →
      (insertOrReplace key buf cursor).1.length = buf.length ∧
      (insertOrReplace key buf cursor).1.get? cursor =
        some (if key = '*' then ':' else key) ∧
      (∀ i, i ≠ cursor → (insertOrReplace key buf cursor).1.get? i = buf.get? i) ∧
      (insertOrReplace key buf cursor).2 = cursor + 1) ∧
    (cursor = buf.length →
      (insertOrReplace key buf cursor).1 = buf ++ [if key = '*' then ':' else key] ∧
      (insertOrReplace key buf cursor).2 = buf.length + 1) := by
  by_cases hlt : cursor < buf.length
  · have hcl : ¬((buf.set cursor (if key = '*' then ':' else key)).length < cursor + 1) := by
      rw [List.length_set]
      omega
    have hr : insertOrReplace key buf cursor =
        (buf.set cursor (if key = '*' then ':' else key), cursor + 1) := by
      simp only [insertOrReplace, if_pos hlt, if_neg hcl]
    rw [hr]
    constructor
    · intro _
      exact ⟨List.length_set buf cursor _, get_set_same buf cursor _ hlt,
        fun i hi => get_set_other buf cursor i _ (fun e => hi e.symm), rfl⟩
    · intro heq
      omega
  · have hr : insertOrReplace key buf cursor =
        (buf ++ [if key = '*' then ':' else key],
         (buf ++ [if key = '*' then ':' else key]).length) := by
      simp only [insertOrReplace, if_neg hlt]
    rw [hr]
    constructor
    · intro hc
      omega
    · intro _
      exact ⟨rfl, by simp⟩

theorem c5_witness :
    (('7' : Char).isDigit = true ∨ ('7' : Char) = '*') ∧ 1 ≤ ['0', '8'].length ∧
    ((1 < (['0', '8'] : List Char).length →
      (insertOrReplace '7' ['0', '8'] 1).1.length = (['0', '8'] : List Char).length ∧
      (insertOrReplace '7' ['0', '8'] 1).1.get? 1 =
        some (if ('7' : Char) = '*' then ':' else '7') ∧
      (∀ i, i ≠ 1 →
        (insertOrReplace '7' ['0', '8'] 1).1.get? i = (['0', '8'] : List Char).get? i) ∧
      (insertOrReplace '7' ['0', '8'] 1).2 = 1 + 1) ∧
    (1 = (['0', '8'] : List Char).length →
      (insertOrReplace '7' ['0', '8'] 1).1 =
        ['0', '8'] ++ [if ('7' : Char) = '*' then ':' else '7'] ∧
      (insertOrReplace '7' ['0', '8'] 1).2 = (['0', '8'] : List Char).length + 1)) :=
  ⟨by decide, by decide, c5_insert_or_replace '7' ['0', '8'] 1 (by decide) (by decide)⟩

/-! ### Claim C8 -/

theorem promptFor_length (st : MenuState) : (promptFor st).length = promptLenFor st := by
  cases st <;> rfl

/-- Claim C8, counterexample: the editable-row prompts of the five edit
fields are not five distinct texts, since the pump-time and feed-time
fields (two different states) share the same prompt. -/
theorem c8_counterexample :
    promptFor .SET_PUMP_TIME = promptFor .SET_FEED_TIME ∧
    MenuState.SET_PUMP_TIME ≠ MenuState.SET_FEED_TIME := by
  exact ⟨rfl, by decide⟩

/-- Claim C8, amended: the editable-row prompt is a pure function of the
navigator state (two states with the same `currentState` render the same
prompt portion of the row), but only three distinct prompts occur: the
pump-duration and feed-quantity prompts, and one shared prompt for the
three time fields.  The five fields are instead distinguished by five
pairwise distinct row-0 captions. -/
theorem c8_prompt_pure_three_distinct :
    (∀ s t : Sys, s.currentState = t.currentState →
      (updateInputDisplayWithCursor s).rowText.take (promptLenFor s.currentState) =
      (updateInputDisplayWithCursor t).rowText.take (promptLenFor t.currentState)) ∧
    promptFor .SET_PUMP_TIME = promptFor .SET_FEED_TIME ∧
    promptFor .SET_FEED_TIME = promptFor .SET_CURRENT_TIME ∧
    promptFor .SET_PUMP_DURATION ≠ promptFor .SET_FEED_QUANTITY ∧
    promptFor .SET_PUMP_DURATION ≠ promptFor .SET_PUMP_TIME ∧
    promptFor .SET_FEED_QUANTITY ≠ promptFor .SET_PUMP_TIME ∧
    List.Pairwise (fun a b => a ≠ b)
      [captionFor .SET_PUMP_TIME, captionFor .SET_PUMP_DURATION,
       captionFor .SET_FEED_TIME, captionFor .SET_FEED_QUANTITY,
       captionFor .SET_CURRENT_TIME] := by
  refine ⟨?_, rfl, rfl, by decide, by decide, by decide, by decide⟩
  intro s t h
  simp only [updateInputDisplayWithCursor]
  rw [← promptFor_length s.currentState, ← promptFor_length t.currentState, h]
  rw [List.take_left, List.take_left]

theorem c8_witness :
    (updateInputDisplayWithCursor { initialSettings with
      currentState := .SET_PUMP_TIME, inputBuffer := ['1'] }).rowText.take
      (promptLenFor MenuState.SET_PUMP_TIME) =
    (updateInputDisplayWithCursor { initialSettings with
      currentState := .SET_PUMP_TIME, inputBuffer := ['2', '3'] }).rowText.take
      (promptLenFor MenuState.SET_PUMP_TIME) :=
  c8_prompt_pure_three_distinct.1
    { initialSettings with currentState := .SET_PUMP_TIME, inputBuffer := ['1'] }
    { initialSettings with currentState := .SET_PUMP_TIME, inputBuffer := ['2', '3'] }
    rfl

/-! ### Claim C7 -/

/-- A concrete edit-screen state, mid-entry: pump-time screen, buffer
"12", cursor after the second character. -/
def c7EditState : Sys :=
  { initialSettings with
    currentState := .SET_PUMP_TIME,
    inputBuffer := ['1', '2'],
    cursorPos := 2 }

/-- Claim C7, counterexample: answering "no" to the cancel overlay from
an edit screen does not redisplay an empty buffer with the cursor at 0;
the buffer "12" and cursor position 2 survive and are re-rendered. -/
theorem c7_counterexample :
    (cancelOperation c7EditState .no).inputBuffer ≠ [] ∧
    (cancelOperation c7EditState .no).cursorPos ≠ 0 ∧
    (updateInputDisplayWithCursor (cancelOperation c7EditState .no)).rowText ≠
      promptFor .SET_PUMP_TIME ∧
    (updateInputDisplayWithCursor (cancelOperation c7EditState .no)).cursorCol ≠
      promptLenFor .SET_PUMP_TIME + 0 := by
  decide

/-- Conclusion of the amended claim C7: after answering "no", every
piece of navigator, settings, run and editor state is unchanged, and
the interrupted edit screen is redrawn with its caption, its prompt,
the preserved buffer, and the cursor at promptLength + preserved
cursor position. -/
def c7Preserved (s : Sys) : Prop :=
  let s1 := cancelOperation s .no
  s1.currentState = s.currentState ∧ s1.inputBuffer = s.inputBuffer ∧
  s1.cursorPos = s.cursorPos ∧
  s1.pumpHour = s.pumpHour ∧ s1.pumpMinute = s.pumpMinute ∧
  s1.pumpDuration = s.pumpDuration ∧ s1.feedHour = s.feedHour ∧
  s1.feedMinute = s.feedMinute ∧ s1.feedQuantity = s.feedQuantity ∧
  s1.pumpActivated = s.pumpActivated ∧ s1.pumpPaused = s.pumpPaused ∧
  s1.pumpElapsedBeforePause = s.pumpElapsedBeforePause ∧
  s1.feedActivated = s.feedActivated ∧ s1.feedPaused = s.feedPaused ∧
  s1.feedCount = s.feedCount ∧ s1.relayOn = s.relayOn ∧
  s1.eeprom = s.eeprom ∧ s1.rtc = s.rtc ∧
  cancelNoDisplay s1 =
    (captionFor s.currentState,
     { rowText := promptFor s.currentState ++ s.inputBuffer,
       cursorCol := promptLenFor s.currentState + s.cursorPos,
       cursorShown := true })

/-- Claim C7, amended: answering "no" from any edit screen returns to
the same edit field with schedule settings and run state untouched, and
redisplays that screen's caption and prompt followed by the preserved
(not cleared) input buffer, the cursor staying at its previous
position. -/
theorem c7_cancel_no_preserves (s : Sys) (h : s.currentState ≠ .MAIN_DISPLAY) :
    c7Preserved s := by
  refine ⟨rfl, rfl, rfl, rfl, rfl, rfl, rfl, rfl, rfl, rfl, rfl, rfl, rfl, rfl,
    rfl, rfl, rfl, rfl, rfl⟩

theorem c7_witness :
    c7EditState.currentState ≠ MenuState.MAIN_DISPLAY ∧ c7Preserved c7EditState :=
  ⟨by decide, c7_cancel_no_preserves c7EditState (by decide)⟩

/-! ### Claim C1 -/

/-- A state on the pump-time edit screen whose previously committed
settings (08:00, in range) are persisted, about to commit the
out-of-range buffer "99:99". -/
def c1Start : Sys :=
  { saveSettings initialSettings with
    currentState := .SET_PUMP_TIME,
    inputBuffer := ['9', '9', ':', '9', '9'] }

/-- The state after the failed commit of "99:99". -/
def c1After : Sys := processInput c1Start

/-- The state after then successfully committing "10:30" on the
feed-time screen. -/
def c1Second : Sys :=
  processInput { c1After with
    currentState := .SET_FEED_TIME,
    inputBuffer := ['1', '0', ':', '3', '0'] }

/-- Claim C1 is violated by the code: `processInput` assigns the parsed
hour and minute to the globals before range-checking them, so the
failed commit of "99:99" shows "Invalid Time!" yet leaves the in-memory
pump hour and minute at 99 — out of range and different from the
previously committed 8 and 0 (which do survive in EEPROM).  Worse, a
subsequent successful feed-time commit persists the corrupt in-memory
pump hour and minute 99:99 to EEPROM via `saveSettings`. -/
theorem c1_invalid_commit_corrupts_memory :
    c1After.msg = .invalidTime ∧
    c1After.currentState = .SET_PUMP_TIME ∧
    c1After.pumpHour = 99 ∧ c1After.pumpMinute = 99 ∧
    c1After.eeprom EEPROM_PUMP_HOUR = 8 ∧ c1After.eeprom EEPROM_PUMP_MINUTE = 0 ∧
    c1Second.msg = .feedTimeSet ∧ c1Second.feedHour = 10 ∧ c1Second.feedMinute = 30 ∧
    c1Second.eeprom EEPROM_PUMP_HOUR = 99 ∧ c1Second.eeprom EEPROM_PUMP_MINUTE = 99 := by
  decide

/-! ### Claim C10, counterexample -/

/-- A pump-time commit of the buffer "99:": the separator sits at
position 2 > 0 and the minute text is empty. -/
def c10State : Sys :=
  { initialSettings with
    currentState := .SET_PUMP_TIME,
    inputBuffer := ['9', '9', ':'] }

/-- Claim C10, counterexample: for the buffer "99:" the separator is at
position 2 > 0 and the text after it is empty, yet validation does not
succeed — the parsed hour 99 is out of range, so the commit fails with
"Invalid Time!" and stays on the edit screen.  The claim's universal
"validation succeeds" therefore fails as stated. -/
theorem c10_counterexample :
    indexOfChar ':' c10State.inputBuffer = 2 ∧
    c10State.inputBuffer.drop 3 = [] ∧
    (processInput c10State).msg = .invalidTime ∧
    (processInput c10State).currentState = .SET_PUMP_TIME := by
  decide

/-! ### Claim C6 -/

/-- The three edit screens whose commit parses an HH:MM buffer. -/
def timeField (st : MenuState) : Prop :=
  st = .SET_PUMP_TIME ∨ st = .SET_FEED_TIME ∨ st = .SET_CURRENT_TIME

instance (st : MenuState) : Decidable (timeField st) := by
  unfold timeField; infer_instance

/-- Conclusion of claim C6: the commit left every stored setting, the
EEPROM, the clock and the run state unchanged, stayed on the same edit
screen, and redisplayed it with an empty buffer (after the format-hint
message). -/
def c6Frame (s : Sys) : Prop :=
  let s1 := processInput s
  s1.currentState = s.currentState ∧ s1.inputBuffer = [] ∧ s1.cursorPos = 0 ∧
  s1.msg = .useStar ∧
  s1.pumpHour = s.pumpHour ∧ s1.pumpMinute = s.pumpMinute ∧
  s1.pumpDuration = s.pumpDuration ∧ s1.feedHour = s.feedHour ∧
  s1.feedMinute = s.feedMinute ∧ s1.feedQuantity = s.feedQuantity ∧
  s1.eeprom = s.eeprom ∧ s1.rtc = s.rtc ∧
  s1.pumpActivated = s.pumpActivated ∧ s1.feedActivated = s.feedActivated

/-- Claim C6: committing a buffer that contains no separator on any
time field mutates no stored schedule state, keeps the navigator on the
same edit screen, and clears the buffer and cursor for re-entry. -/
theorem c6_no_separator_frame (s : Sys) (hst : timeField s.currentState)
    (hbuf : ':' ∉ s.inputBuffer) : c6Frame s := by
  have hidx : indexOfChar ':' s.inputBuffer = -1 := indexOfChar_of_not_mem ':' s.inputBuffer hbuf
  have hneg : ¬((0 : Int) < -1) := by decide
  rcases hst with h | h | h <;>
    simp [c6Frame, processInput, h, hidx, if_neg hneg]

/-- A pump-time edit screen holding the separator-free buffer "0830". -/
def c6State : Sys :=
  { initialSettings with
    currentState := .SET_PUMP_TIME,
    inputBuffer := ['0', '8', '3', '0'],
    cursorPos := 4 }

theorem c6_witness :
    timeField c6State.currentState ∧ ':' ∉ c6State.inputBuffer ∧ c6Frame c6State :=
  ⟨by decide, by decide, c6_no_separator_frame c6State (by decide) (by decide)⟩

/-! ### Claim C3 -/

/-- Every poll in the list reads exactly the configured hour/minute
(a sequence of polls inside the scheduled minute). -/
def allMatch (cfgH cfgM : Int) (polls : List (Int × Int)) : Prop :=
  ∀ p ∈ polls, p.1 = cfgH ∧ p.2 = cfgM

def allMatchFeed (cfgH cfgM : Int) (polls : List (Int × Int × Bool)) : Prop :=
  ∀ p ∈ polls, p.1 = cfgH ∧ p.2.1 = cfgM

instance (cfgH cfgM : Int) (polls : List (Int × Int)) :
    Decidable (allMatch cfgH cfgM polls) := by
  unfold allMatch; infer_instance

instance (cfgH cfgM : Int) (polls : List (Int × Int × Bool)) :
    Decidable (allMatchFeed cfgH cfgM polls) := by
  unfold allMatchFeed; infer_instance

theorem pumpScan_latched (cfgH cfgM : Int) :
    ∀ polls : List (Int × Int), allMatch cfgH cfgM polls →
    pumpScan cfgH cfgM polls true = (0, true)
  | [], _ => rfl
  | p :: rest, h => by
    obtain ⟨h1, h2⟩ := h p (List.mem_cons_self p rest)
    have hr : checkPumpSchedule cfgH cfgM p.1 p.2 true = (false, true) := by
      simp [checkPumpSchedule, h1, h2]
    have ht := pumpScan_latched cfgH cfgM rest (fun q hq => h q (List.mem_cons_of_mem p hq))
    simp [pumpScan, hr, ht]

theorem pumpScan_le_one (cfgH cfgM : Int) :
    ∀ (polls : List (Int × Int)) (trig : Bool), allMatch cfgH cfgM polls →
    (pumpScan cfgH cfgM polls trig).1 ≤ 1
  | [], _, _ => by simp [pumpScan]
  | p :: rest, true, h => by
    rw [pumpScan_latched cfgH cfgM (p :: rest) h]
    exact Nat.zero_le 1
  | p :: rest, false, h => by
    obtain ⟨h1, h2⟩ := h p (List.mem_cons_self p rest)
    have hr : checkPumpSchedule cfgH cfgM p.1 p.2 false = (true, true) := by
      simp [checkPumpSchedule, h1, h2]
    have ht := pumpScan_latched cfgH cfgM rest (fun q hq => h q (List.mem_cons_of_mem p hq))
    simp [pumpScan, hr, ht]

theorem feedScan_latched (cfgH cfgM : Int) :
    ∀ polls : List (Int × Int × Bool), allMatchFeed cfgH cfgM polls →
    feedScan cfgH cfgM polls true = (0, true)
  | [], _ => rfl
  | p :: rest, h => by
    obtain ⟨h1, h2⟩ := h p (List.mem_cons_self p rest)
    have hr : checkFeedSchedule cfgH cfgM p.1 p.2.1 p.2.2 true = (false, true) := by
      simp [checkFeedSchedule, h1, h2]
    have ht := feedScan_latched cfgH cfgM rest (fun q hq => h q (List.mem_cons_of_mem p hq))
    simp [feedScan, hr, ht]

theorem feedScan_le_one (cfgH cfgM : Int) :
    ∀ (polls : List (Int × Int × Bool)) (trig : Bool), allMatchFeed cfgH cfgM polls →
    (feedScan cfgH cfgM polls trig).1 ≤ 1
  | [], _, _ => by simp [feedScan]
  | p :: rest, true, h => by
    rw [feedScan_latched cfgH cfgM (p :: rest) h]
    exact Nat.zero_le 1
  | p :: rest, false, h => by
    obtain ⟨h1, h2⟩ := h p (List.mem_cons_self p rest)
    have ht := feedScan_latched cfgH cfgM rest (fun q hq => h q (List.mem_cons_of_mem p hq))
    have htl := feedScan_le_one cfgH cfgM rest false (fun q hq => h q (List.mem_cons_of_mem p hq))
    by_cases ha : p.2.2 = true
    · have hr : checkFeedSchedule cfgH cfgM p.1 p.2.1 p.2.2 false = (false, false) := by
        simp [checkFeedSchedule, h1, h2, ha]
      simpa [feedScan, hr] using htl
    · have ha2 : p.2.2 = false := by
        cases hb : p.2.2
        · rfl
        · exact absurd hb ha
      have hr : checkFeedSchedule cfgH cfgM p.1 p.2.1 p.2.2 false = (true, true) := by
        simp [checkFeedSchedule, h1, h2, ha2]
      simp [feedScan, hr, ht]

/-- Claim C3: for pump and feed independently, a start fires at most
once across any sequence of polls made while the clock reads the
configured hour and minute (whatever the initial latch and, for feed,
whatever `feedActivated` does meanwhile); one poll in any other minute
resets the latch to false; and with the latch clear a poll at the
configured time fires again (for feed: when no feed run is active) —
so the schedule re-arms for the next day. -/
theorem c3_schedule_single_trigger (cfgH cfgM : Int) :
    (∀ (polls : List (Int × Int)) (trig : Bool), allMatch cfgH cfgM polls →
      (pumpScan cfgH cfgM polls trig).1 ≤ 1) ∧
    (∀ (h m : Int) (trig : Bool), m ≠ cfgM →
      (checkPumpSchedule cfgH cfgM h m trig).2 = false) ∧
    (checkPumpSchedule cfgH cfgM cfgH cfgM false).1 = true ∧
    (∀ (polls : List (Int × Int × Bool)) (trig : Bool), allMatchFeed cfgH cfgM polls →
      (feedScan cfgH cfgM polls trig).1 ≤ 1) ∧
    (∀ (h m : Int) (trig : Bool), m ≠ cfgM →
      (checkFeedSchedule cfgH cfgM h m false trig).2 = false) ∧
    (checkFeedSchedule cfgH cfgM cfgH cfgM false false).1 = true := by
  refine ⟨pumpScan_le_one cfgH cfgM, ?_, ?_, feedScan_le_one cfgH cfgM, ?_, ?_⟩
  · intro h m trig hm
    simp [checkPumpSchedule, hm]
  · simp [checkPumpSchedule]
  · intro h m trig hm
    simp [checkFeedSchedule, hm]
  · simp [checkFeedSchedule]

theorem c3_witness :
    (pumpScan 8 0 [(8, 0), (8, 0), (8, 0)] false).1 ≤ 1 ∧
    (checkPumpSchedule 8 0 8 1 true).2 = false ∧
    (checkPumpSchedule 8 0 8 0 false).1 = true ∧
    (feedScan 9 0 [(9, 0, false), (9, 0, true), (9, 0, false)] false).1 ≤ 1 ∧
    (checkFeedSchedule 9 0 9 1 false true).2 = false ∧
    (checkFeedSchedule 9 0 9 0 false false).1 = true :=
  ⟨(c3_schedule_single_trigger 8 0).1 [(8, 0), (8, 0), (8, 0)] false (by decide),
   (c3_schedule_single_trigger 8 0).2.1 8 1 true (by decide),
   (c3_schedule_single_trigger 8 0).2.2.1,
   (c3_schedule_single_trigger 9 0).2.2.2.1 [(9, 0, false), (9, 0, true), (9, 0, false)]
     false (by decide),
   (c3_schedule_single_trigger 9 0).2.2.2.2.1 9 1 true (by decide),
   (c3_schedule_single_trigger 9 0).2.2.2.2.2⟩

/-! ### Claim C2 -/

/-- Invariant of a pump run with target duration `D` seconds: the relay
is on exactly while activated and unpaused; while running the on-time
equals `elapsedBefore + (now - startTime)` and has not yet reached the
target; while paused it is frozen at `elapsedBefore`; once deactivated
it equals exactly `D * 1000` milliseconds. -/
def pumpInv (D : Nat) (s : PumpRun) : Prop :=
  s.relayOn = (s.activated && !s.paused) ∧
  (s.activated = true → s.paused = false →
    s.startTime ≤ s.now ∧
    s.onTime = s.elapsedBefore + (s.now - s.startTime) ∧
    s.onTime < D * 1000) ∧
  (s.activated = true → s.paused = true →
    s.onTime = s.elapsedBefore ∧ s.onTime < D * 1000) ∧
  (s.activated = false → s.onTime = D * 1000)

theorem pumpInv_step (D : Nat) (s : PumpRun) (e : PumpEv) (h : pumpInv D s) :
    pumpInv D (pumpStep D s e) := by
  obtain ⟨act, pau, st, eb, now, rel, ot⟩ := s
  obtain ⟨hr, hrun, hpz, hdone⟩ := h
  have hr2 : rel = (act && !pau) := hr
  cases e
  case tick =>
    cases act
    · have hd : ot = D * 1000 := hdone rfl
      simp [pumpStep, pumpLoopCheck, pumpInv, hr2]
      omega
    · cases pau
      · have h1 : st ≤ now := (hrun rfl rfl).1
        have h2 : ot = eb + (now - st) := (hrun rfl rfl).2.1
        have h3 : ot < D * 1000 := (hrun rfl rfl).2.2
        by_cases hstop : D * 1000 ≤ eb + (now + 1 - st)
        · simp [pumpStep, pumpLoopCheck, stopPumpRun, pumpInv, hr2, hstop]
          omega
        · simp [pumpStep, pumpLoopCheck, pumpInv, hr2, hstop]
          omega
      · have h1 : ot = eb := (hpz rfl rfl).1
        have h2 : ot < D * 1000 := (hpz rfl rfl).2
        simp [pumpStep, pumpLoopCheck, pumpInv, hr2]
        omega
  case pauseKey =>
    cases act
    · have hd : ot = D * 1000 := hdone rfl
      simp [pumpStep, pumpInv, hr2]
      omega
    · cases pau
      · have h1 : st ≤ now := (hrun rfl rfl).1
        have h2 : ot = eb + (now - st) := (hrun rfl rfl).2.1
        have h3 : ot < D * 1000 := (hrun rfl rfl).2.2
        simp [pumpStep, pumpInv, hr2]
        omega
      · have h1 : ot = eb := (hpz rfl rfl).1
        have h2 : ot < D * 1000 := (hpz rfl rfl).2
        simp [pumpStep, pumpInv, hr2]
        omega

theorem pumpInv_trace (D : Nat) : ∀ (evs : List PumpEv) (s : PumpRun), pumpInv D s →
    pumpInv D (pumpRunTrace D s evs)
  | [], _, h => h
  | e :: evs, s, h => pumpInv_trace D evs (pumpStep D s e) (pumpInv_step D s e h)

/-- Claim C2: over any sequence of millisecond ticks and pause/resume
key presses applied to a pump run started with duration `D > 0`
seconds, the elapsed time toward the target is always
`elapsedBefore + (now - startTime)` while running, is frozen while
paused (pause time never counts), and when the run completes the total
wall-clock time the relay spent on is exactly `D * 1000` milliseconds,
i.e. `D` seconds, however often the run was paused. -/
theorem c2_pump_on_time_eq_duration (D t0 : Nat) (hD : 0 < D) (evs : List PumpEv) :
    let s := pumpRunTrace D (startPump t0) evs
    (s.activated = true → s.paused = false →
      s.onTime = s.elapsedBefore + (s.now - s.startTime)) ∧
    (s.activated = true → s.paused = true → s.onTime = s.elapsedBefore) ∧
    (s.activated = false → s.onTime = D * 1000) := by
  have h0 : pumpInv D (startPump t0) := by
    refine ⟨rfl, fun _ _ => ⟨Nat.le_refl _, by simp [startPump], ?_⟩, by simp [startPump], by simp [startPump]⟩
    have : 0 < D * 1000 := by omega
    simpa [startPump] using this
  obtain ⟨hr, hrun, hpz, hdone⟩ := pumpInv_trace D evs (startPump t0) h0
  exact ⟨fun ha hp => ((hrun ha hp).2.1), fun ha hp => (hpz ha hp).1, hdone⟩

/-- A concrete run of duration 1 s: 2.5 s of ticks with a pause from
t = 500 ms to t = 2000 ms. -/
def c2Trace : List PumpEv :=
  List.replicate 500 PumpEv.tick ++ [PumpEv.pauseKey] ++
  List.replicate 1500 PumpEv.tick ++ [PumpEv.pauseKey] ++
  List.replicate 500 PumpEv.tick

theorem c2_witness :
    0 < 1 ∧
    (let s := pumpRunTrace 1 (startPump 0) c2Trace
     (s.activated = true → s.paused = false →
       s.onTime = s.elapsedBefore + (s.now - s.startTime)) ∧
     (s.activated = true → s.paused = true → s.onTime = s.elapsedBefore) ∧
     (s.activated = false → s.onTime = 1 * 1000)) :=
  ⟨Nat.one_pos, c2_pump_on_time_eq_duration 1 0 Nat.one_pos c2Trace⟩

/-! ### Claim C4 -/

theorem gapsOK_append (x : Nat) : ∀ (l : List Nat), gapsOK l = true →
    (∀ t ∈ l, t + 2000 ≤ x) → gapsOK (l ++ [x]) = true
  | [], _, _ => rfl
  | [a], _, hb => by
    have hx := hb a (List.mem_singleton_self a)
    simp [gapsOK, hx]
  | a :: b :: rest, hg, hb => by
    simp only [gapsOK, Bool.and_eq_true, decide_eq_true_eq] at hg
    have ht := gapsOK_append x (b :: rest) hg.2
      (fun t htm => hb t (List.mem_cons_of_mem a htm))
    simp only [List.cons_append, gapsOK, Bool.and_eq_true, decide_eq_true_eq]
    constructor
    · exact hg.1
    · simpa using ht

/-- Invariant of a feed run with target quantity `Q`: dispense times
are spaced at least 2000 ms apart and never in the future of
`lastFeedTime`; while activated the dispense count equals the number of
dispenses done and is still short of `Q`; once deactivated exactly `Q`
dispenses happened and the count was reset to 0. -/
def feedInv (Q : Nat) (s : FeedRun) : Prop :=
  gapsOK s.dispenses = true ∧
  s.lastFeedTime ≤ s.now ∧
  (∀ t ∈ s.dispenses, t ≤ s.lastFeedTime) ∧
  (s.activated = true → s.dispenses.length = s.feedCount ∧ s.feedCount < Q) ∧
  (s.activated = false → s.dispenses.length = Q ∧ s.feedCount = 0)

theorem feedInv_step (Q : Nat) (s : FeedRun) (e : FeedEv) (h : feedInv Q s) :
    feedInv Q (feedStep Q s e) := by
  obtain ⟨act, pau, cnt, lft, now, disp⟩ := s
  obtain ⟨hg, hlt, hall, hact, hdone⟩ := h
  have hg2 : gapsOK disp = true := hg
  have hlt2 : lft ≤ now := hlt
  have hall2 : ∀ t ∈ disp, t ≤ lft := hall
  cases e
  case tick =>
    cases act
    · have hd1 : disp.length = Q := (hdone rfl).1
      have hd2 : cnt = 0 := (hdone rfl).2
      have hstep : feedStep Q ⟨false, pau, cnt, lft, now, disp⟩ .tick =
          ⟨false, pau, cnt, lft, now + 1, disp⟩ := by
        simp [feedStep, feedLoopBody]
      rw [hstep]
      exact ⟨hg2, by show lft ≤ now + 1; omega, hall2, fun ha => Bool.noConfusion ha,
        fun _ => ⟨hd1, hd2⟩⟩
    · cases pau
      · have h1 : disp.length = cnt := (hact rfl).1
        have h2 : cnt < Q := (hact rfl).2
        by_cases hdisp : 2000 ≤ now + 1 - lft
        · have hgap : ∀ t ∈ disp, t + 2000 ≤ now + 1 := by
            intro t ht
            have := hall2 t ht
            omega
          have hg3 : gapsOK (disp ++ [now + 1]) = true :=
            gapsOK_append (now + 1) disp hg2 hgap
          have hallx : ∀ t ∈ disp ++ [now + 1], t ≤ now + 1 := by
            intro t ht
            rcases List.mem_append.mp ht with hm | hm
            · have := hall2 t hm
              omega
            · exact Nat.le_of_eq (List.mem_singleton.mp hm)
          have hlen : (disp ++ [now + 1]).length = cnt + 1 := by
            simp [h1]
          by_cases hfin : Q ≤ cnt + 1
          · have hstep : feedStep Q ⟨true, false, cnt, lft, now, disp⟩ .tick =
                ⟨false, false, 0, now + 1, now + 1, disp ++ [now + 1]⟩ := by
              simp [feedStep, feedLoopBody, hdisp, hfin]
            rw [hstep]
            refine ⟨hg3, Nat.le_refl _, hallx, fun ha => Bool.noConfusion ha,
              fun _ => ⟨?_, rfl⟩⟩
            show (disp ++ [now + 1]).length = Q
            omega
          · have hstep : feedStep Q ⟨true, false, cnt, lft, now, disp⟩ .tick =
                ⟨true, false, cnt + 1, now + 1, now + 1, disp ++ [now + 1]⟩ := by
              simp [feedStep, feedLoopBody, hdisp, hfin]
            rw [hstep]
            exact ⟨hg3, Nat.le_refl _, hallx,
              fun _ => ⟨hlen, by show cnt + 1 < Q; omega⟩,
              fun ha => Bool.noConfusion ha⟩
        · have hstep : feedStep Q ⟨true, false, cnt, lft, now, disp⟩ .tick =
              ⟨true, false, cnt, lft, now + 1, disp⟩ := by
            simp [feedStep, feedLoopBody, hdisp]
          rw [hstep]
          exact ⟨hg2, by show lft ≤ now + 1; omega, hall2, fun _ => ⟨h1, h2⟩,
            fun ha => Bool.noConfusion ha⟩
      · have h1 : disp.length = cnt := (hact rfl).1
        have h2 : cnt < Q := (hact rfl).2
        have hstep : feedStep Q ⟨true, true, cnt, lft, now, disp⟩ .tick =
            ⟨true, true, cnt, lft, now + 1, disp⟩ := by
          simp [feedStep, feedLoopBody]
        rw [hstep]
        exact ⟨hg2, by show lft ≤ now + 1; omega, hall2, fun _ => ⟨h1, h2⟩,
          fun ha => Bool.noConfusion ha⟩
  case pauseKey =>
    cases act
    · have hstep : feedStep Q ⟨false, pau, cnt, lft, now, disp⟩ .pauseKey =
          ⟨false, pau, cnt, lft, now, disp⟩ := by
        simp [feedStep]
      rw [hstep]
      exact ⟨hg2, hlt2, hall2, fun ha => Bool.noConfusion ha,
        fun _ => ⟨(hdone rfl).1, (hdone rfl).2⟩⟩
    · have h1 : disp.length = cnt := (hact rfl).1
      have h2 : cnt < Q := (hact rfl).2
      cases pau
      · have hstep : feedStep Q ⟨true, false, cnt, lft, now, disp⟩ .pauseKey =
            ⟨true, true, cnt, lft, now, disp⟩ := by
          simp [feedStep]
        rw [hstep]
        exact ⟨hg2, hlt2, hall2, fun _ => ⟨h1, h2⟩, fun ha => Bool.noConfusion ha⟩
      · have hstep : feedStep Q ⟨true, true, cnt, lft, now, disp⟩ .pauseKey =
            ⟨true, false, cnt, now, now, disp⟩ := by
          simp [feedStep]
        rw [hstep]
        exact ⟨hg2, Nat.le_refl _, fun t ht => Nat.le_trans (hall2 t ht) hlt2,
          fun _ => ⟨h1, h2⟩, fun ha => Bool.noConfusion ha⟩

theorem feedInv_trace (Q : Nat) : ∀ (evs : List FeedEv) (s : FeedRun), feedInv Q s →
    feedInv Q (feedRunTrace Q s evs)
  | [], _, h => h
  | e :: evs, s, h => feedInv_trace Q evs (feedStep Q s e) (feedInv_step Q s e h)

/-- Claim C4: over any sequence of millisecond ticks and pause/resume
key presses applied to a feed run started with target quantity `Q ≥ 1`
and never cancelled, the dispensed count never exceeds `Q` at a loop
boundary, consecutive dispenses are at least 2000 ms apart, and if the
run has completed then exactly `Q` dispenses were performed, the run is
deactivated and the count is reset to 0. -/
theorem c4_feed_run_correct (Q t0 : Nat) (hQ : 1 ≤ Q) (evs : List FeedEv) :
    let s := feedRunTrace Q (startFeeding t0) evs
    s.feedCount ≤ Q ∧ gapsOK s.dispenses = true ∧
    (s.activated = false → s.dispenses.length = Q ∧ s.feedCount = 0) := by
  have h0 : feedInv Q (startFeeding t0) := by
    refine ⟨rfl, Nat.le_refl _, ?_, fun _ => ⟨rfl, by show 0 < Q; omega⟩, by simp [startFeeding]⟩
    intro t ht
    simp [startFeeding] at ht
  obtain ⟨hg, hlt, hall, hact, hdone⟩ := feedInv_trace Q evs (startFeeding t0) h0
  refine ⟨?_, hg, hdone⟩
  cases ha : (feedRunTrace Q (startFeeding t0) evs).activated
  · have := (hdone ha).2
    omega
  · have := (hact ha).2
    omega

/-- A concrete run with quantity 2: 4.2 s of ticks with a pause in the
middle. -/
def c4Trace : List FeedEv :=
  List.replicate 2100 FeedEv.tick ++ [FeedEv.pauseKey] ++
  List.replicate 300 FeedEv.tick ++ [FeedEv.pauseKey] ++
  List.replicate 2100 FeedEv.tick

theorem c4_witness :
    1 ≤ 2 ∧
    (let s := feedRunTrace 2 (startFeeding 0) c4Trace
     s.feedCount ≤ 2 ∧ gapsOK s.dispenses = true ∧
     (s.activated = false → s.dispenses.length = 2 ∧ s.feedCount = 0)) :=
  ⟨by decide, c4_feed_run_correct 2 0 (by decide) c4Trace⟩

/-! ### Claim C10, amended -/

/-- Whether a character list starts with a decimal digit. -/
def startsWithDigit : List Char → Bool
  | [] => false
  | c :: _ => c.isDigit

theorem toInt_nil : toInt [] = 0 := rfl

theorem toInt_colon_head (rest : List Char) : toInt (':' :: rest) = 0 := rfl

/-- On a keypad buffer (digits and ':' only), a minute text that is
empty or does not start with a digit parses to 0 by the atol zero
fallback. -/
theorem toInt_no_digit_head (l : List Char)
    (hchars : ∀ c ∈ l, c.isDigit = true ∨ c = ':')
    (hhead : startsWithDigit l = false) : toInt l = 0 := by
  cases l with
  | nil => rfl
  | cons c rest =>
    have hc : c.isDigit = true ∨ c = ':' := hchars c (List.mem_cons_self c rest)
    have hnd : c.isDigit = false := hhead
    rcases hc with hd | hcol
    · rw [hd] at hnd
      exact Bool.noConfusion hnd
    · rw [hcol]
      exact toInt_colon_head rest

/-- Conclusion of amended claim C10 for the three time fields: the
commit succeeds and the committed minute is 0, in memory and (for the
two schedule fields) in EEPROM, or (for the clock) in the RTC. -/
def c10Accepts (s : Sys) : Prop :=
  (s.currentState = .SET_PUMP_TIME →
    (processInput s).msg = .pumpTimeSet ∧
    (processInput s).currentState = .MAIN_DISPLAY ∧
    (processInput s).pumpMinute = 0 ∧
    (processInput s).eeprom EEPROM_PUMP_MINUTE = 0) ∧
  (s.currentState = .SET_FEED_TIME →
    (processInput s).msg = .feedTimeSet ∧
    (processInput s).currentState = .MAIN_DISPLAY ∧
    (processInput s).feedMinute = 0 ∧
    (processInput s).eeprom EEPROM_FEED_MINUTE = 0) ∧
  (s.currentState = .SET_CURRENT_TIME →
    (processInput s).msg = .clockSet ∧
    (processInput s).currentState = .MAIN_DISPLAY ∧
    (processInput s).rtc.minute = 0)

/-- Claim C10, amended: for every time-field commit from a keypad
buffer (digits and ':' only) whose separator sits at a position
greater than 0, whose text after the separator is empty or does not
begin with a digit, and whose hour text parses into [0, 23], validation
succeeds and the committed minute is 0: the zero fallback of integer
parsing accepts the malformed minute text instead of rejecting it.
(The hour-in-range hypothesis is forced: with an out-of-range hour such
as in "99:" the commit fails, see the counterexample.) -/
theorem c10_zero_fallback_accepts (s : Sys)
    (hchars : ∀ c ∈ s.inputBuffer, c.isDigit = true ∨ c = ':')
    (hcol : 0 < indexOfChar ':' s.inputBuffer)
    (hmin : startsWithDigit
      (s.inputBuffer.drop ((indexOfChar ':' s.inputBuffer).toNat + 1)) = false)
    (hlo : 0 ≤ toInt (s.inputBuffer.take (indexOfChar ':' s.inputBuffer).toNat))
    (hhi : toInt (s.inputBuffer.take (indexOfChar ':' s.inputBuffer).toNat) ≤ 23) :
    c10Accepts s := by
  have hm0 : toInt (s.inputBuffer.drop ((indexOfChar ':' s.inputBuffer).toNat + 1)) = 0 := by
    refine toInt_no_digit_head _ ?_ hmin
    intro c hc
    exact hchars c (List.drop_subset _ s.inputBuffer hc)
  have hcond : 0 ≤ toInt (s.inputBuffer.take (indexOfChar ':' s.inputBuffer).toNat) ∧
      toInt (s.inputBuffer.take (indexOfChar ':' s.inputBuffer).toNat) ≤ 23 ∧
      (0 : Int) ≤ 0 ∧ (0 : Int) ≤ 59 := ⟨hlo, hhi, le_refl 0, by omega⟩
  refine ⟨?_, ?_, ?_⟩ <;> intro hst
  · simp only [c10Accepts, processInput, hst, if_pos hcol, hm0]
    rw [if_pos]
    · refine ⟨rfl, rfl, rfl, ?_⟩
      simp [saveSettings, eepromWriteByte, writeIntToEEPROM,
        EEPROM_PUMP_MINUTE, EEPROM_PUMP_DURATION, EEPROM_FEED_HOUR,
        EEPROM_FEED_MINUTE, EEPROM_FEED_QUANTITY]
      decide
    · exact ⟨hlo, hhi, le_refl 0, by omega⟩
  · simp only [c10Accepts, processInput, hst, if_pos hcol, hm0]
    rw [if_pos]
    · refine ⟨rfl, rfl, rfl, ?_⟩
      simp [saveSettings, eepromWriteByte, writeIntToEEPROM,
        EEPROM_PUMP_MINUTE, EEPROM_PUMP_DURATION, EEPROM_FEED_HOUR,
        EEPROM_FEED_MINUTE, EEPROM_FEED_QUANTITY]
      decide
    · exact ⟨hlo, hhi, le_refl 0, by omega⟩
  · simp only [c10Accepts, processInput, hst, if_pos hcol, hm0]
    rw [if_pos]
    · exact ⟨rfl, rfl, rfl⟩
    · exact ⟨hlo, hhi, le_refl 0, by omega⟩

/-- A pump-time commit of "12:" — separator at 2, empty minute text,
hour 12 in range. -/
def c10OkState : Sys :=
  { initialSettings with
    currentState := .SET_PUMP_TIME,
    inputBuffer := ['1', '2', ':'] }

theorem c10_witness :
    (∀ c ∈ c10OkState.inputBuffer, c.isDigit = true ∨ c = ':') ∧
    0 < indexOfChar ':' c10OkState.inputBuffer ∧
    startsWithDigit
      (c10OkState.inputBuffer.drop ((indexOfChar ':' c10OkState.inputBuffer).toNat + 1)) = false ∧
    0 ≤ toInt (c10OkState.inputBuffer.take (indexOfChar ':' c10OkState.inputBuffer).toNat) ∧
    toInt (c10OkState.inputBuffer.take (indexOfChar ':' c10OkState.inputBuffer).toNat) ≤ 23 ∧
    c10Accepts c10OkState :=
  ⟨by decide, by decide, by decide, by decide, by decide,
   c10_zero_fallback_accepts c10OkState (by decide) (by decide) (by decide)
     (by decide) (by decide)⟩

end FishFeeder
